import Mathlib

/-!
# Verification of the Pulse canvas widget (src/js/pulse.js)

Shallow embedding of the Pulse widget: sample sequences are `List ℚ`,
canvas-context calls are an explicit `RenderOp` trace, and the widget's
mutable fields form the structure `PulseState`.  Every definition is a
direct translation of the corresponding JavaScript in `src/js/pulse.js`.
-/

set_option autoImplicit false

namespace Pulse

/-- Static method `Pulse.surround(graph, length)` (pulse.js lines 155-159):
a new array of `length` zeros, then `graph` unchanged, then `length` zeros. -/
def surround (graph : List ℚ) (length : ℕ) : List ℚ :=
  List.replicate length 0 ++ graph ++ List.replicate length 0

/-- Static method `Pulse.repeatAndSurround(graph, repeats, length)` (pulse.js
lines 161-166): `surroundBy = Math.floor(length / 2)`; surround `graph` by
`surroundBy` zeros, concatenate `repeats` copies of the result, and surround
once more. -/
def repeatAndSurround (graph : List ℚ) (repeats : ℕ) (length : ℕ) : List ℚ :=
  let surroundBy := length / 2
  let surrounded := surround graph surroundBy
  let repeated := (List.replicate repeats surrounded).flatten
  surround repeated surroundBy

/-- The sequence built in `onInit` (pulse.js lines 70-72):
`repeatAndSurround` when `repeat > 1`, else `surround`. -/
def buildSequence (markup : List ℚ) (repeats : ℕ) (interval : ℕ) : List ℚ :=
  if 1 < repeats then repeatAndSurround markup repeats interval
  else surround markup interval

/-- One canvas-context call issued by the widget.  Gradient stop colors in
pulse.js are always of the form `rgba(0, 0, 0, α)`, so a stop is modelled as
the pair `(offset, α)`. -/
inductive RenderOp where
  | clearRect : ℚ → ℚ → ℚ → ℚ → RenderOp
  | setStrokeColor : String → RenderOp
  | setStrokeGradient : ℚ → ℚ → ℚ → ℚ → List (ℚ × ℚ) → RenderOp
  | setLineWidth : ℚ → RenderOp
  | beginPath : RenderOp
  | moveTo : ℚ → ℚ → RenderOp
  | lineTo : ℚ → ℚ → RenderOp
  | stroke : RenderOp
deriving DecidableEq

/-- The fields a `Pulse` instance holds after `onInit` ran (pulse.js lines
53-64 and 69-85): `markup` is the built sequence, `canvasWidth` and
`canvasHeight` are the canvas element's dimensions, `heightCfg` is the stored
`this.height` configuration option (`none` for JavaScript `undefined`), and
`weigth` keeps the source's spelling of the stroke weight field.
`firstIteration` is `false` where JavaScript leaves it `undefined`, which is
equivalent in every read the code performs. -/
structure PulseState where
  markup : List ℚ
  repeats : ℕ
  distribution : ℚ
  heightCfg : Option ℚ
  trailed : Bool
  animated : Bool
  speed : ℚ
  weigth : ℚ
  color : String
  trailingColor : String
  interval : ℕ
  canvasWidth : ℚ
  canvasHeight : ℚ
  animationStep : ℕ
  firstIteration : Bool
deriving DecidableEq

/-- The configuration record accepted by the constructor (pulse.js lines
40-52), with the documented defaults. -/
structure PulseConfig where
  markup : List ℚ
  distribution : ℚ
  heightCfg : Option ℚ
  repeats : ℕ
  trailed : Bool
  animated : Bool
  speed : ℚ
  weight : ℚ
  color : String
  trailingColor : String
  interval : ℕ
deriving DecidableEq

/-- The default configuration values of the constructor (pulse.js lines
41-51); the default markup is the `PULSE_DEFAULT.pulse` preset
`[1.0, -0.466, 0.733]`. -/
def defaultConfig : PulseConfig where
  markup := [1, -466/1000, 733/1000]
  distribution := 5/2
  heightCfg := none
  repeats := 1
  trailed := false
  animated := false
  speed := 50
  weight := 5
  color := "rgba(0, 0, 0, 1)"
  trailingColor := "rgba(0, 0, 0, 0)"
  interval := 4

/-- The constructor followed by `onInit` (pulse.js lines 40-86), given the
canvas element's current width and height.  The body contains no validation
and no `throw`, so it always returns `Except.ok`; the `Except` result type
records that construction can never fail.  The final synchronous `draw()`
call emits render ops but changes no field, so the state below is the state
after the constructor returns. -/
def construct (_canvasW canvasH : ℚ) (cfg : PulseConfig) : Except String PulseState :=
  let built := buildSequence cfg.markup cfg.repeats cfg.interval
  Except.ok {
    markup := built
    repeats := cfg.repeats
    distribution := cfg.distribution
    heightCfg := cfg.heightCfg
    trailed := cfg.trailed
    animated := cfg.animated
    speed := cfg.speed
    weigth := cfg.weight
    color := cfg.color
    trailingColor := cfg.trailingColor
    interval := cfg.interval
    canvasWidth := ((built.length : ℚ) - 1) * cfg.distribution
    canvasHeight := cfg.heightCfg.getD canvasH
    animationStep := if cfg.animated then 0 else built.length - 1
    firstIteration := cfg.animated }

/-- The vertical coordinate of a sample (pulse.js line 117):
`(canvas.height / 2) - ((canvas.height / 2) * markup[i])`. -/
def yCoord (height v : ℚ) : ℚ := height / 2 - height / 2 * v

/-- The `moveTo`/`lineTo` calls of the drawing loop (pulse.js lines 115-124):
index `0` moves, every later index draws a line, each at
`(distribution * i, yCoord canvasHeight markup[i])`. -/
def drawPoints (s : PulseState) : List RenderOp :=
  (List.range s.markup.length).map fun (i : ℕ) =>
    if i = 0 then
      RenderOp.moveTo (s.distribution * (i : ℚ)) (yCoord s.canvasHeight (s.markup.getD i 0))
    else
      RenderOp.lineTo (s.distribution * (i : ℚ)) (yCoord s.canvasHeight (s.markup.getD i 0))

/-- The gradient stops added when animated (pulse.js lines 93-104), with
`progress = (1 / markup.length) * animationStep`. -/
def gradientStops (s : PulseState) : List (ℚ × ℚ) :=
  let progress := (1 / (s.markup.length : ℚ)) * (s.animationStep : ℚ)
  [(0, 0), (progress, 1)] ++
    (if s.trailed && !s.firstIteration then [(progress, 0), (1, 1 - progress)]
     else [(progress, 0), (1, 0)])

/-- Method `Pulse.draw()` (pulse.js lines 88-126) as the list of
canvas-context calls it issues, in order. -/
def draw (s : PulseState) : List RenderOp :=
  RenderOp.clearRect 0 0 s.canvasWidth s.canvasHeight ::
  (if s.animated then RenderOp.setStrokeGradient 0 0 s.canvasWidth 0 (gradientStops s)
   else RenderOp.setStrokeColor s.color) ::
  RenderOp.setLineWidth s.weigth ::
  RenderOp.beginPath ::
  drawPoints s ++ [RenderOp.stroke]

/-- One firing of the `setInterval` callback registered by `startAnimation`
(pulse.js lines 148-152): advance `animationStep` (wrapping to `0` once it
would pass `markup.length - 1`), then clear `firstIteration` if it is set and
the new step equals `markup.length - 1`.  The callback's `draw()` call mutates
no field. -/
def pulseTick (s : PulseState) : PulseState :=
  let step := if s.animationStep < s.markup.length - 1 then s.animationStep + 1 else 0
  { s with
    animationStep := step
    firstIteration :=
      if s.firstIteration = true ∧ step = s.markup.length - 1 then false
      else s.firstIteration }

/-- Method `Pulse.setWidth(width)` (pulse.js lines 128-131), paired with the
list of canvas-context calls it issues (none). -/
def setWidth (s : PulseState) (width : ℚ) : PulseState × List RenderOp :=
  ({ s with
      distribution := width / ((s.markup.length : ℚ) - 1)
      canvasWidth := width }, [])

/-- Method `Pulse.setHeight(height)` (pulse.js lines 133-135), paired with
the list of canvas-context calls it issues (none). -/
def setHeight (s : PulseState) (height : ℚ) : PulseState × List RenderOp :=
  ({ s with canvasHeight := height }, [])

/-- Method `Pulse.resize(width, height)` (pulse.js lines 137-140): `setWidth`
then `setHeight`, collecting the canvas-context calls of both. -/
def resize (s : PulseState) (width height : ℚ) : PulseState × List RenderOp :=
  let r1 := setWidth s width
  let r2 := setHeight r1.1 height
  (r2.1, r1.2 ++ r2.2)

/-- Whether a canvas call sets the stroke style. -/
def isStrokeStyle : RenderOp → Bool
  | RenderOp.setStrokeColor _ => true
  | RenderOp.setStrokeGradient _ _ _ _ _ => true
  | _ => false

/-- The ops that set the stroke style within a trace of canvas calls. -/
def strokeStyles (ops : List RenderOp) : List RenderOp :=
  ops.filter isStrokeStyle

/-- The gradient stop offsets a single canvas call passes to `addColorStop`. -/
def stopOffsets : RenderOp → List ℚ
  | RenderOp.setStrokeGradient _ _ _ _ stops => stops.map Prod.fst
  | _ => []

/-- All gradient stop offsets passed to `addColorStop` within a trace of
canvas calls. -/
def gradientOffsets (ops : List RenderOp) : List ℚ :=
  (ops.map stopOffsets).flatten

/-- A concrete animated widget state whose built sequence has length 1
(markup `[1]`, interval `0`), as produced at construction: cursor `0`,
`firstIteration` set. -/
def stL1 : PulseState where
  markup := [1]
  repeats := 1
  distribution := 5/2
  heightCfg := none
  trailed := false
  animated := true
  speed := 50
  weigth := 5
  color := "rgba(0, 0, 0, 1)"
  trailingColor := "rgba(0, 0, 0, 0)"
  interval := 0
  canvasWidth := 0
  canvasHeight := 150
  animationStep := 0
  firstIteration := true

/-- A concrete animated widget state with built sequence of length 3, cursor
`0` and `firstIteration` set. -/
def stAnim : PulseState where
  markup := [1, 0, 1]
  repeats := 1
  distribution := 5/2
  heightCfg := none
  trailed := false
  animated := true
  speed := 50
  weigth := 5
  color := "rgba(0, 0, 0, 1)"
  trailingColor := "rgba(0, 0, 0, 0)"
  interval := 0
  canvasWidth := 5
  canvasHeight := 150
  animationStep := 0
  firstIteration := true

theorem surround_length (s : List ℚ) (n : ℕ) :
    (surround s n).length = s.length + 2 * n := by
  simp [surround]
  omega

theorem repeatAndSurround_length (s : List ℚ) (r n : ℕ) :
    (repeatAndSurround s r n).length = r * (s.length + 2 * (n / 2)) + 2 * (n / 2) := by
  simp [repeatAndSurround, surround, List.length_flatten, List.map_replicate,
    List.sum_replicate, smul_eq_mul]
  ring_nf

/-- Surrounding a non-empty list yields a non-empty list. -/
theorem surround_ne_nil (s : List ℚ) (n : ℕ) (hs : s ≠ []) :
    surround s n ≠ [] := by
  have hlen : (surround s n).length = s.length + 2 * n := surround_length s n
  have hpos : 0 < s.length := List.length_pos.mpr hs
  intro hnil
  rw [hnil] at hlen
  simp at hlen
  omega

/-- C1 (counterexample): at markup `[1]`, repeat `2`, interval `1` the claimed
length `interval*2 + repeat*len + interval*(repeat-1) = 5` disagrees with the
code: `repeatAndSurround [1] 2 1 = [1, 1]` has length 2 (the code pads by
`floor(interval/2) = 0`, not by `interval`). -/
theorem buildSequence_length_claim_false :
    (buildSequence [1] 2 1).length = 2 ∧
    ¬ (buildSequence [1] 2 1).length = 1 * 2 + 2 * 1 + 1 * (2 - 1) := by
  constructor
  · decide
  · decide

/-- C1 (amended): for non-empty markup `m`, interval `n ≥ 0` and repeat
`r ≥ 1`, the sequence built at construction has length
`2*(n/2)*2 + r*m.length + 2*(n/2)*(r-1)` when `r > 1` (the code pads with
`floor(n/2)`, not `n`, on the repeat path), and `m.length + 2*n` when `r = 1`;
it is never empty. -/
theorem buildSequence_length (m : List ℚ) (r n : ℕ) (hm : m ≠ []) (hr : 1 ≤ r) :
    (buildSequence m r n).length =
      (if 1 < r then 2 * (n / 2) * 2 + r * m.length + 2 * (n / 2) * (r - 1)
       else m.length + 2 * n) ∧
    buildSequence m r n ≠ [] := by
  have hpos : 0 < m.length := List.length_pos.mpr hm
  by_cases h : 1 < r
  · have hlen : (buildSequence m r n).length =
        r * (m.length + 2 * (n / 2)) + 2 * (n / 2) := by
      rw [buildSequence, if_pos h]
      exact repeatAndSurround_length m r n
    refine ⟨?_, ?_⟩
    · rw [hlen, if_pos h]
      obtain ⟨k, rfl⟩ : ∃ k, r = k + 2 := ⟨r - 2, by omega⟩
      have hsub : k + 2 - 1 = k + 1 := rfl
      rw [hsub]
      ring
    · intro hnil
      rw [hnil] at hlen
      simp at hlen
      have h2 : 1 ≤ m.length + 2 * (n / 2) := by omega
      have h3 : r * 1 ≤ r * (m.length + 2 * (n / 2)) := Nat.mul_le_mul_left r h2
      omega
  · have hr1 : r = 1 := by omega
    have hlen : (buildSequence m r n).length = m.length + 2 * n := by
      rw [buildSequence, if_neg h]
      exact surround_length m n
    refine ⟨?_, ?_⟩
    · rw [hlen, if_neg h]
    · intro hnil
      rw [hnil] at hlen
      simp at hlen
      omega

/-- C1 (witness): the amended length formula evaluated at markup `[1]`,
repeat `2`, interval `4`. -/
theorem buildSequence_length_witness :
    ([(1 : ℚ)] ≠ [] ∧ 1 ≤ 2) ∧
    ((buildSequence [1] 2 4).length =
      (if 1 < 2 then 2 * (4 / 2) * 2 + 2 * [(1 : ℚ)].length + 2 * (4 / 2) * (2 - 1)
       else [(1 : ℚ)].length + 2 * 4) ∧
     buildSequence [1] 2 4 ≠ []) :=
  ⟨⟨by decide, by decide⟩, buildSequence_length [1] 2 4 (by decide) (by decide)⟩

/-- One step of unrolling `(List.replicate (k+1) (Z ++ s ++ Z)).flatten`:
the concatenation of `k+1` surrounded units is `Z ++ s` followed by `k`
blocks `(Z ++ Z) ++ s` and a final `Z`. -/
theorem flatten_replicate_surrounded (Z s : List ℚ) (k : ℕ) :
    (List.replicate (k + 1) (Z ++ s ++ Z)).flatten =
      Z ++ s ++ (List.replicate k ((Z ++ Z) ++ s)).flatten ++ Z := by
  induction k with
  | zero => simp
  | succ k ih =>
    rw [List.replicate_succ, List.flatten_cons, ih,
      List.replicate_succ, List.flatten_cons]
    simp [List.append_assoc]

/-- C2 (counterexample): at `s = [1]`, `r = 2`, `n = 2` (so `half = 1`)
the result is `[0, 0, 1, 0, 0, 1, 0, 0]`: the run of zeros at the outer edge
has length `2`, not `half = 1` as the claim states. -/
theorem repeatAndSurround_half_claim_false :
    (repeatAndSurround [1] 2 2).takeWhile (fun x => x == 0) = [0, 0] ∧
    ¬ ((repeatAndSurround [1] 2 2).takeWhile (fun x => x == 0)).length = 2 / 2 := by
  constructor
  · decide
  · decide

/-- C2 (amended): for every sample list `s`, repeat `r > 1` and pad count
`n ≥ 0`, with `half = n / 2`, `repeatAndSurround s r n` consists of `2 * half`
zeros, then `s`, then `r - 1` further blocks of `2 * half` zeros followed by a
copy of `s`, then `2 * half` final zeros: i.e. twice `half` zeros at each outer
edge and twice `half` zeros between consecutive copies of `s`. -/
theorem repeatAndSurround_structure (s : List ℚ) (r n : ℕ) (hr : 1 < r) :
    repeatAndSurround s r n =
      List.replicate (2 * (n / 2)) 0 ++ s ++
        (List.replicate (r - 1) (List.replicate (2 * (n / 2)) 0 ++ s)).flatten ++
        List.replicate (2 * (n / 2)) 0 := by
  obtain ⟨k, rfl⟩ : ∃ k, r = k + 1 + 1 := ⟨r - 2, by omega⟩
  have hZZ : List.replicate (2 * (n / 2)) (0 : ℚ) =
      List.replicate (n / 2) 0 ++ List.replicate (n / 2) 0 := by
    rw [two_mul, List.append_replicate_replicate]
  have key := flatten_replicate_surrounded (List.replicate (n / 2) 0) s (k + 1)
  simp only [repeatAndSurround, surround]
  rw [key, show k + 1 + 1 - 1 = k + 1 from rfl, hZZ]
  simp only [← List.append_assoc, List.append_replicate_replicate]
  rw [List.append_assoc, List.append_replicate_replicate]

/-- C2 (witness): the amended structure evaluated at `s = [1]`, `r = 2`,
`n = 2`. -/
theorem repeatAndSurround_structure_witness :
    1 < 2 ∧
    repeatAndSurround [1] 2 2 =
      List.replicate (2 * (2 / 2)) 0 ++ [1] ++
        (List.replicate (2 - 1) (List.replicate (2 * (2 / 2)) 0 ++ [1])).flatten ++
        List.replicate (2 * (2 / 2)) 0 :=
  ⟨by decide, repeatAndSurround_structure [1] 2 2 (by decide)⟩

/-- C3: for non-empty `s` and `n ≥ 0`, `surround s n` has length
`s.length + 2 * n`; the slice at positions `n .. n + s.length` is `s` element
for element; every position outside that slice (the first `n` and the last `n`)
is `0`. -/
theorem surround_spec (s : List ℚ) (n : ℕ) (_hs : s ≠ []) :
    (surround s n).length = s.length + 2 * n ∧
    ((surround s n).drop n).take s.length = s ∧
    (surround s n).take n = List.replicate n 0 ∧
    (surround s n).drop (n + s.length) = List.replicate n 0 := by
  have hZ : (List.replicate n (0 : ℚ)).length = n := List.length_replicate n 0
  refine ⟨surround_length s n, ?_, ?_, ?_⟩
  · rw [surround, List.append_assoc, List.drop_left' hZ,
      List.take_left' rfl]
  · rw [surround, List.append_assoc, List.take_left' hZ]
  · rw [surround, show List.replicate n (0 : ℚ) ++ s ++ List.replicate n 0 =
      (List.replicate n 0 ++ s) ++ List.replicate n 0 from rfl,
      List.drop_left']
    rw [List.length_append, hZ, Nat.add_comm]

/-- C3 (witness): the `surround` specification evaluated at `s = [1]`,
`n = 2`. -/
theorem surround_spec_witness :
    [(1 : ℚ)] ≠ [] ∧
    ((surround [1] 2).length = [(1 : ℚ)].length + 2 * 2 ∧
     ((surround [1] 2).drop 2).take [(1 : ℚ)].length = [1] ∧
     (surround [1] 2).take 2 = List.replicate 2 0 ∧
     (surround [1] 2).drop (2 + [(1 : ℚ)].length) = List.replicate 2 0) :=
  ⟨by decide, surround_spec [1] 2 (by decide)⟩

theorem pulseTick_markup (s : PulseState) : (pulseTick s).markup = s.markup := rfl

theorem iterate_pulseTick_markup (s : PulseState) (k : ℕ) :
    (pulseTick^[k] s).markup = s.markup := by
  induction k with
  | zero => rfl
  | succ k ih => rw [Function.iterate_succ_apply', pulseTick_markup, ih]

/-- Advancing modulo `L` by one step, phrased the way the timer callback
computes it. -/
theorem succ_mod_char (k L : ℕ) (hL : 1 ≤ L) :
    (k + 1) % L = if k % L < L - 1 then k % L + 1 else 0 := by
  have hlt : k % L < L := Nat.mod_lt _ (by omega)
  by_cases h : k % L < L - 1
  · rw [if_pos h, ← Nat.mod_add_mod, Nat.mod_eq_of_lt (by omega)]
  · rw [if_neg h, ← Nat.mod_add_mod, show k % L = L - 1 from by omega,
      show L - 1 + 1 = L from by omega, Nat.mod_self]

/-- The state `stL1` is exactly the state the constructor produces for markup
`[1]`, interval `0`, animated, on a 150-high canvas. -/
theorem stL1_constructed :
    (construct 0 150
      { defaultConfig with markup := [1], interval := 0, animated := true }).toOption =
      some stL1 := by
  have hb : buildSequence [1] 1 0 = [1] := by decide
  simp [construct, hb, stL1, defaultConfig, Except.toOption]

/-- C4 (counterexample): for the animated widget `stL1` with sequence
length `L = 1`, `firstIteration` is still `true` after `L - 1 = 0` ticks and
becomes `false` only on tick `1`, so it does not become false on tick number
`L - 1` as the claim states (the cursor sits at `L - 1 = 0` from the start). -/
theorem animation_cursor_claim_false :
    stL1.markup.length = 1 ∧
    (pulseTick^[1 - 1] stL1).firstIteration = true ∧
    (pulseTick^[1] stL1).firstIteration = false := by
  refine ⟨by decide, by decide, by decide⟩

/-- C4 (amended): for an animated widget whose built sequence has length
`L ≥ 1`, starting from cursor `0` with `firstIteration` set: after `k` ticks
the cursor is `k % L` (each tick increments it by 1 and wraps to 0 once it
would exceed `L - 1`, so after exactly `L` ticks it is back at `0`), and
`firstIteration` still holds exactly when `k = 0` or `k + 1 < L` — i.e. it
becomes false on tick `L - 1` when `L ≥ 2`, on tick `1` when `L = 1`, and
never changes afterwards. -/
theorem animation_cursor (s : PulseState) (L : ℕ) (hL : 1 ≤ L)
    (hlen : s.markup.length = L) (hstep : s.animationStep = 0)
    (hfirst : s.firstIteration = true) (k : ℕ) :
    (pulseTick^[k] s).animationStep = k % L ∧
    ((pulseTick^[k] s).firstIteration = true ↔ (k = 0 ∨ k + 1 < L)) := by
  induction k with
  | zero =>
    simp [hstep, hfirst]
  | succ k ih =>
    rw [Function.iterate_succ_apply']
    obtain ⟨ihs, ihf⟩ := ih
    set t := pulseTick^[k] s with ht
    have hm : t.markup.length = L := by rw [ht, iterate_pulseTick_markup, hlen]
    have hstepdef : (pulseTick t).animationStep =
        (if t.animationStep < t.markup.length - 1 then t.animationStep + 1 else 0) := rfl
    have hfirstdef : (pulseTick t).firstIteration =
        (if t.firstIteration = true ∧
            (if t.animationStep < t.markup.length - 1 then t.animationStep + 1 else 0) =
              t.markup.length - 1
         then false else t.firstIteration) := rfl
    have hstep' : (pulseTick t).animationStep = (k + 1) % L := by
      rw [hstepdef, hm, ihs, succ_mod_char k L hL]
    refine ⟨hstep', ?_⟩
    rw [hfirstdef, hm, ihs, ← succ_mod_char k L hL]
    rcases Nat.lt_or_ge (k + 1) L with hlt | hge
    · have hmodv : (k + 1) % L = k + 1 := Nat.mod_eq_of_lt hlt
      rw [hmodv]
      by_cases hf : t.firstIteration = true
      · have hd := ihf.mp hf
        by_cases hc : k + 1 = L - 1
        · rw [if_pos ⟨hf, hc⟩]
          simp only [Bool.false_eq_true, false_iff]
          omega
        · rw [if_neg (fun hand => hc hand.2), hf]
          simp only [true_iff]
          omega
      · have hf' : t.firstIteration = false := by
          revert hf; cases t.firstIteration <;> simp
        have hnd : ¬ (k = 0 ∨ k + 1 < L) := fun h => hf (ihf.mpr h)
        rw [if_neg (fun hand => hf hand.1), hf']
        simp only [Bool.false_eq_true, false_iff]
        omega
    · by_cases hf : t.firstIteration = true
      · have hd := ihf.mp hf
        have hL1 : L = 1 := by omega
        subst hL1
        have hm1 : (k + 1) % 1 = 0 := Nat.mod_one _
        rw [hm1, if_pos ⟨hf, rfl⟩]
        simp only [Bool.false_eq_true, false_iff]
        omega
      · have hf' : t.firstIteration = false := by
          revert hf; cases t.firstIteration <;> simp
        have hnd : ¬ (k = 0 ∨ k + 1 < L) := fun h => hf (ihf.mpr h)
        rw [if_neg (fun hand => hf hand.1), hf']
        simp only [Bool.false_eq_true, false_iff]
        omega

/-- C4 (witness): the amended cursor/`firstIteration` characterization
evaluated on `stAnim` (length 3) after 4 ticks. -/
theorem animation_cursor_witness :
    (1 ≤ 3 ∧ stAnim.markup.length = 3 ∧ stAnim.animationStep = 0 ∧
      stAnim.firstIteration = true) ∧
    ((pulseTick^[4] stAnim).animationStep = 4 % 3 ∧
     ((pulseTick^[4] stAnim).firstIteration = true ↔ (4 = 0 ∨ 4 + 1 < 3))) :=
  ⟨⟨by decide, by decide, by decide, by decide⟩,
   animation_cursor stAnim 3 (by decide) (by decide) (by decide) (by decide) 4⟩

theorem strokeStyles_drawPoints (s : PulseState) :
    strokeStyles (drawPoints s) = [] := by
  rw [strokeStyles, List.filter_eq_nil_iff]
  intro op hop
  simp only [drawPoints] at hop
  rcases List.mem_map.mp hop with ⟨i, _, rfl⟩
  by_cases h0 : i = 0 <;> simp [isStrokeStyle, h0]

/-- C5: when `animated`, `draw` sets exactly one stroke style: a
horizontal linear gradient from `(0,0)` to `(canvasWidth, 0)` whose stops
are offset `0` transparent, offset `progress = animationStep / markup.length`
opaque, then (if `trailed` and not `firstIteration`) offset `progress`
transparent and offset `1` with alpha `1 - progress`, otherwise offset
`progress` transparent and offset `1` transparent. -/
theorem draw_gradient (s : PulseState) (h : s.animated = true) :
    strokeStyles (draw s) = [RenderOp.setStrokeGradient 0 0 s.canvasWidth 0
      ([(0, 0), ((s.animationStep : ℚ) / (s.markup.length : ℚ), 1)] ++
       (if s.trailed && !s.firstIteration then
          [((s.animationStep : ℚ) / (s.markup.length : ℚ), 0),
           (1, 1 - (s.animationStep : ℚ) / (s.markup.length : ℚ))]
        else
          [((s.animationStep : ℚ) / (s.markup.length : ℚ), 0), (1, 0)]))] := by
  have hpts := strokeStyles_drawPoints s
  rw [strokeStyles] at hpts
  simp [draw, strokeStyles, h, List.filter_append, hpts, isStrokeStyle,
    gradientStops, one_div_mul_eq_div, inv_mul_eq_div]

/-- C5 (witness): the gradient stroke style evaluated on the concrete
animated state `stAnim`. -/
theorem draw_gradient_witness :
    stAnim.animated = true ∧
    strokeStyles (draw stAnim) = [RenderOp.setStrokeGradient 0 0 stAnim.canvasWidth 0
      ([(0, 0), ((stAnim.animationStep : ℚ) / (stAnim.markup.length : ℚ), 1)] ++
       (if stAnim.trailed && !stAnim.firstIteration then
          [((stAnim.animationStep : ℚ) / (stAnim.markup.length : ℚ), 0),
           (1, 1 - (stAnim.animationStep : ℚ) / (stAnim.markup.length : ℚ))]
        else
          [((stAnim.animationStep : ℚ) / (stAnim.markup.length : ℚ), 0), (1, 0)]))] :=
  ⟨rfl, draw_gradient stAnim rfl⟩

/-- C6: for every widget state, the path stroked by `draw` (everything
after the first three ops) is one connected polyline through ALL samples:
`beginPath`, a `moveTo`/`lineTo` per index `i` at
`(distribution * i, canvasHeight/2 - canvasHeight/2 * markup[i])`, then one
`stroke` — independent of `animationStep`; and the coordinate map sends
sample `1` to `y = 0`, sample `-1` to `y = canvasHeight`, and sample `0` to
`y = canvasHeight / 2`, for any height. -/
theorem draw_polyline (s : PulseState) :
    ((draw s).drop 3 = RenderOp.beginPath ::
      ((List.range s.markup.length).map fun (i : ℕ) =>
        if i = 0 then
          RenderOp.moveTo (s.distribution * (i : ℚ))
            (s.canvasHeight / 2 - s.canvasHeight / 2 * s.markup.getD i 0)
        else
          RenderOp.lineTo (s.distribution * (i : ℚ))
            (s.canvasHeight / 2 - s.canvasHeight / 2 * s.markup.getD i 0)) ++
      [RenderOp.stroke]) ∧
    (∀ a : ℕ, (draw { s with animationStep := a }).drop 3 = (draw s).drop 3) ∧
    (∀ h : ℚ, yCoord h 1 = 0 ∧ yCoord h (-1) = h ∧ yCoord h 0 = h / 2) := by
  refine ⟨?_, ?_, ?_⟩
  · simp [draw, drawPoints, yCoord]
  · intro a
    simp [draw, drawPoints, yCoord]
  · intro h
    refine ⟨by simp [yCoord], by rw [yCoord]; ring, by simp [yCoord]⟩

/-- C7 (counterexample): constructing with an empty markup raises no
error: the constructor contains no validation, returns normally, and builds
a sequence of `2 * interval = 8` zeros with the default configuration. -/
theorem construct_empty_markup_ok :
    (construct 300 150 { defaultConfig with markup := [] }).isOk = true ∧
    (construct 300 150 { defaultConfig with markup := [] }).toOption.map
      PulseState.markup = some (List.replicate 8 0) := by
  exact ⟨rfl, by decide⟩

/-- C7 (amended): constructing a widget with an empty markup sequence
raises no error: the code performs no validation at construction, and (for
`repeat ≤ 1`) the built sequence is the `2 * interval` padding zeros alone. -/
theorem construct_empty_markup (w h : ℚ) (cfg : PulseConfig) (hm : cfg.markup = [])
    (hr : cfg.repeats ≤ 1) :
    (construct w h cfg).isOk = true ∧
    (construct w h cfg).toOption.map PulseState.markup =
      some (List.replicate (2 * cfg.interval) 0) := by
  have hb : buildSequence cfg.markup cfg.repeats cfg.interval =
      List.replicate (2 * cfg.interval) 0 := by
    rw [buildSequence, if_neg (by omega), hm, surround]
    simp [two_mul, List.append_replicate_replicate]
  exact ⟨rfl, by simp [construct, Except.toOption, hb]⟩

/-- C7 (witness): construction with empty markup and the default
configuration succeeds with a built sequence of 8 zeros. -/
theorem construct_empty_markup_witness :
    (({ defaultConfig with markup := [] } : PulseConfig).markup = [] ∧
     ({ defaultConfig with markup := [] } : PulseConfig).repeats ≤ 1) ∧
    ((construct 300 150 { defaultConfig with markup := [] }).isOk = true ∧
     (construct 300 150 { defaultConfig with markup := [] }).toOption.map
       PulseState.markup =
       some (List.replicate (2 * ({ defaultConfig with markup := [] } : PulseConfig).interval) 0)) :=
  ⟨⟨rfl, by decide⟩, construct_empty_markup 300 150 _ rfl (by decide)⟩

/-- C8: `resize(w, h)` sets `distribution = w / (markup.length - 1)`,
canvas width `w` and canvas height `h`, leaves the built sequence and every
other widget field unchanged, and issues no canvas-context calls. -/
theorem resize_spec (s : PulseState) (w h : ℚ) :
    (resize s w h).1.distribution = w / ((s.markup.length : ℚ) - 1) ∧
    (resize s w h).1.canvasWidth = w ∧
    (resize s w h).1.canvasHeight = h ∧
    (resize s w h).1.markup = s.markup ∧
    (resize s w h).1.repeats = s.repeats ∧
    (resize s w h).1.heightCfg = s.heightCfg ∧
    (resize s w h).1.trailed = s.trailed ∧
    (resize s w h).1.animated = s.animated ∧
    (resize s w h).1.speed = s.speed ∧
    (resize s w h).1.weigth = s.weigth ∧
    (resize s w h).1.color = s.color ∧
    (resize s w h).1.trailingColor = s.trailingColor ∧
    (resize s w h).1.interval = s.interval ∧
    (resize s w h).1.animationStep = s.animationStep ∧
    (resize s w h).1.firstIteration = s.firstIteration ∧
    (resize s w h).2 = [] :=
  ⟨rfl, rfl, rfl, rfl, rfl, rfl, rfl, rfl, rfl, rfl, rfl, rfl, rfl, rfl, rfl, rfl⟩

/-- C9: `draw` never reads `trailingColor`: two states identical except
for that field produce identical canvas-call traces, for every combination
of `animated`, `trailed` and `firstIteration`. -/
theorem draw_ignores_trailingColor (s : PulseState) (c1 c2 : String) :
    draw { s with trailingColor := c1 } = draw { s with trailingColor := c2 } := rfl

theorem gradientOffsets_drawPoints (s : PulseState) :
    gradientOffsets (drawPoints s) = [] := by
  rw [gradientOffsets, List.flatten_eq_nil_iff]
  intro l hl
  rcases List.mem_map.mp hl with ⟨op, hop, rfl⟩
  simp only [drawPoints] at hop
  rcases List.mem_map.mp hop with ⟨i, _, rfl⟩
  by_cases h0 : i = 0 <;> simp [stopOffsets, h0]

/-- C10: the animation cursor invariant `animationStep ≤ markup.length - 1`
is preserved by every timer tick, and in any animated state satisfying it all
offsets passed to `addColorStop` during `draw` lie in `[0, 1]` (they are `0`,
`progress`, `progress`, `1` with `progress = animationStep / markup.length`). -/
theorem gradient_offsets_in_range (s : PulseState) (hL : 1 ≤ s.markup.length)
    (hstep : s.animationStep ≤ s.markup.length - 1) (ha : s.animated = true) :
    (pulseTick s).animationStep ≤ (pulseTick s).markup.length - 1 ∧
    ∀ o ∈ gradientOffsets (draw s), 0 ≤ o ∧ o ≤ 1 := by
  constructor
  · have hmm : (pulseTick s).markup.length = s.markup.length := by
      rw [pulseTick_markup]
    rw [hmm]
    show (if s.animationStep < s.markup.length - 1 then s.animationStep + 1 else 0) ≤
      s.markup.length - 1
    by_cases hc : s.animationStep < s.markup.length - 1
    · rw [if_pos hc]; omega
    · rw [if_neg hc]; omega
  · have hstops : (gradientStops s).map Prod.fst =
        [0, (1 / (s.markup.length : ℚ)) * (s.animationStep : ℚ),
         (1 / (s.markup.length : ℚ)) * (s.animationStep : ℚ), 1] := by
      rw [gradientStops]
      by_cases hc : (s.trailed && !s.firstIteration) = true <;> simp [hc]
    have hoff : gradientOffsets (draw s) = (gradientStops s).map Prod.fst := by
      have hpts := gradientOffsets_drawPoints s
      rw [gradientOffsets] at hpts
      simp [gradientOffsets, draw, ha, stopOffsets, hpts]
    rw [hoff, hstops]
    have hL0 : (0 : ℚ) < (s.markup.length : ℚ) := by exact_mod_cast hL
    have hp0 : (0 : ℚ) ≤ (1 / (s.markup.length : ℚ)) * (s.animationStep : ℚ) := by
      apply mul_nonneg
      · positivity
      · exact Nat.cast_nonneg _
    have hp1 : (1 / (s.markup.length : ℚ)) * (s.animationStep : ℚ) ≤ 1 := by
      rw [one_div_mul_eq_div, div_le_one hL0]
      exact_mod_cast Nat.le_of_lt_succ (by omega)
    intro o ho
    simp only [List.mem_cons, List.not_mem_nil, or_false] at ho
    rcases ho with rfl | rfl | rfl | rfl
    · exact ⟨le_refl 0, by norm_num⟩
    · exact ⟨hp0, hp1⟩
    · exact ⟨hp0, hp1⟩
    · exact ⟨by norm_num, le_refl 1⟩

/-- C10 (witness): the tick invariant and offset bounds evaluated on the
concrete animated state `stAnim`. -/
theorem gradient_offsets_in_range_witness :
    (1 ≤ stAnim.markup.length ∧ stAnim.animationStep ≤ stAnim.markup.length - 1 ∧
      stAnim.animated = true) ∧
    ((pulseTick stAnim).animationStep ≤ (pulseTick stAnim).markup.length - 1 ∧
     ∀ o ∈ gradientOffsets (draw stAnim), 0 ≤ o ∧ o ≤ 1) :=
  ⟨⟨by decide, by decide, rfl⟩,
   gradient_offsets_in_range stAnim (by decide) (by decide) rfl⟩

end Pulse
